import Mathlib

/-!
Verification of the `local-sql-agent` repository: a shallow embedding of the
generate-execute-repair loop (`src/sql_agent.py`, `SQLAgent.process_query`),
the SQL execution adapter (`SQLAgent.execute_sql`), and the LLM response
parser (`src/llm_client.py`, `LLMClient._extract_sql_from_response`),
together with the data model of `src/models.py`.

External effects are modelled as oracles:
* the chat-completion transport (`LLMClient.get_completion` plus the
  `response['choices'][0]['message']['content']` projection) is an
  `Except String String`: `Except.error e` stands for the try-block raising an
  exception whose message is `e`, `Except.ok c` for the returned content text;
* `json.loads` is modelled at two levels of precision.  `JsonParse` returns a
  string-valued key/value dictionary on success and `none` on a parse failure
  or a non-dict value (the subsequent `in`/`.get` accesses on a non-dict
  either fail the key test or raise inside the surrounding `try`, which the
  code swallows, so both behave exactly like a parse failure); it cannot
  represent a dictionary with a non-string value.  `JsonParseFull` over
  `PyVal` additionally represents JSON `null` values, which flow unchanged
  through the parser and make the pydantic `SQLGenerationResponse`
  construction in `SQLAgent.generate_sql` / `improve_sql` raise a
  `ValidationError` that escapes `process_query`; the fallible
  `process_query_run_full` models that path;
* the sqlite cursor (`cursor.execute` / `description` / `fetchall`) is an
  oracle returning either the engine error text or the pair of the description
  column names and the fetched rows, a row being a by-column-name lookup
  function exactly as `sqlite3.Row` provides.

Python string operations are embedded character-wise (`py_strip`, `py_upper`,
`py_lower`, `py_join`); Python's `in` substring test is `contains_sub`.
-/

/-- A sqlite cell value (sufficient for the claims, which never inspect
cell contents). -/
inductive SQLValue where
  | null
  | intV (i : Int)
  | textV (s : String)
deriving DecidableEq

/-- `models.SQLGenerationResponse` (also the shape of the dictionaries
returned by `LLMClient.generate_sql` / `improve_sql` /
`_extract_sql_from_response`, which `SQLAgent.generate_sql` and
`SQLAgent.improve_sql` repackage field-for-field). -/
structure SQLGenerationResponse where
  sql_query : String
  explanation : String
deriving DecidableEq

/-- `models.SQLQueryResult`. -/
structure SQLQueryResult where
  columns : List String
  rows : List (List SQLValue)
  row_count : Nat
deriving DecidableEq

/-- `models.SQLImprovementAttempt` — one attempt record. -/
structure SQLImprovementAttempt where
  attempt : Nat
  sql : String
  error : String
deriving DecidableEq

/-- `models.SQLAgentResponse`.  The source's `user_purchase_behavior` field is
omitted: `process_query` never sets it (it is always `None`). -/
structure SQLAgentResponse where
  natural_query : String
  generated_sql : String
  explanation : String
  query_result : Option SQLQueryResult
  error : Option String
  improvement_history : Option (List SQLImprovementAttempt)
deriving DecidableEq

/-- Python `str.isspace` on the ASCII whitespace characters relevant to
`str.strip()`. -/
def pyIsSpace (c : Char) : Bool :=
  c == ' ' || c == '\t' || c == '\n' || c == '\r' || c == '\x0b' || c == '\x0c'

/-- Python `str.strip()`: drop leading and trailing whitespace. -/
def py_strip (s : String) : String :=
  String.mk (((s.toList.dropWhile pyIsSpace).reverse.dropWhile pyIsSpace).reverse)

/-- Python `str.upper()` (character-wise). -/
def py_upper (s : String) : String :=
  String.mk (s.toList.map Char.toUpper)

/-- Python `str.lower()` (character-wise). -/
def py_lower (s : String) : String :=
  String.mk (s.toList.map Char.toLower)

/-- Python `sep.join(xs)`. -/
def py_join (sep : String) (xs : List String) : String :=
  String.mk (List.intercalate sep.toList (xs.map String.toList))

/-- Auxiliary scanner for `py_split`: left-to-right, non-overlapping matches
of the (non-empty) separator.  `fuel` starts above the input length, so the
`0` fallback is never reached. -/
def py_split_aux (sep : List Char) : Nat → List Char → List Char → List (List Char)
  | _, [], cur => [cur.reverse]
  | 0, _ :: _, cur => [cur.reverse]
  | fuel + 1, c :: t, cur =>
    if sep.isPrefixOf (c :: t) then
      cur.reverse :: py_split_aux sep fuel ((c :: t).drop sep.length) []
    else
      py_split_aux sep fuel t (c :: cur)

/-- Python `s.split(sep)` for a non-empty separator (Python raises on an empty
one; the source never passes one). -/
def py_split (sep s : String) : List String :=
  if sep.toList.isEmpty then [s]
  else (py_split_aux sep.toList (s.toList.length + 1) s.toList []).map String.mk

/-- Python `s[:n]` (first `n` characters). -/
def py_take (n : Nat) (s : String) : String :=
  String.mk (s.toList.take n)

/-- Python `s[n:]` (all but the first `n` characters). -/
def py_drop (n : Nat) (s : String) : String :=
  String.mk (s.toList.drop n)

/-- Python `s.startswith(p)`. -/
def py_startswith (p s : String) : Bool :=
  p.toList.isPrefixOf s.toList

/-- Executable check that `sub` occurs as a contiguous infix of `l`. -/
def infix_check (sub : List Char) : List Char → Bool
  | [] => sub.isEmpty
  | c :: t => sub.isPrefixOf (c :: t) || infix_check sub t

/-- Python's substring test `sub in s`. -/
def contains_sub (s sub : String) : Bool :=
  infix_check sub.toList s.toList

/-- Python `s.find(c)`: index of the first occurrence, `-1` if absent. -/
def py_find (l : List Char) (c : Char) : Int :=
  match l.findIdx? (fun x => x == c) with
  | some i => (i : Int)
  | none => -1

/-- Python `s.rfind(c)`: index of the last occurrence, `-1` if absent. -/
def py_rfind (l : List Char) (c : Char) : Int :=
  match l.reverse.findIdx? (fun x => x == c) with
  | some i => (l.length : Int) - 1 - i
  | none => -1

/-- String-restricted oracle for Python `json.loads`: `some d` is a parsed
dictionary whose values are strings, `none` is a parse failure or a
non-dictionary value (which the source treats identically — see the module
docstring).  A dictionary containing a non-string value (e.g. JSON `null`) is
not representable here; that case, where the program raises a pydantic
`ValidationError` out of `process_query`, is modelled by
`JsonParseFull`/`PyVal` further below.  This restricted model is sound for
runs whose oracle never produces such a value. -/
abbrev JsonParse := String → Option (List (String × String))

/-- `llm_client.py` lines 73-83 (method 1): a fenced block tagged `json`,
parsed as a key/value object requiring both `sql_query` and `explanation`. -/
def json_block_method (jp : JsonParse) (content : String) : Option SQLGenerationResponse :=
  if contains_sub content "```json" then
    let json_content := py_strip ((py_split "```" ((py_split "```json" content).getD 1 "")).getD 0 "")
    match jp json_content with
    | some d =>
      if (d.lookup "sql_query").isSome && (d.lookup "explanation").isSome then
        some ⟨(d.lookup "sql_query").getD "", (d.lookup "explanation").getD ""⟩
      else none
    | none => none
  else none

/-- `llm_client.py` lines 85-104 (method 2): any fenced code block; a leading
`sql` token (case-insensitive) is stripped. -/
def code_block_method (content : String) : Option SQLGenerationResponse :=
  if contains_sub content "```" then
    let code_content := py_strip ((py_split "```" ((py_split "```" content).getD 1 "")).getD 0 "")
    if py_startswith "sql" (py_lower code_content) then
      some ⟨py_strip (py_drop 3 code_content), "Extracted SQL query from code block"⟩
    else
      some ⟨code_content, "Extracted SQL query from code block"⟩
  else none

/-- `llm_client.py` lines 106-119 (method 3): the substring from the first
`\x7b` to the last `\x7d`, parsed as a key/value object. -/
def json_object_method (jp : JsonParse) (content : String) : Option SQLGenerationResponse :=
  let l := content.toList
  let start_idx := py_find l '\x7b'
  let end_idx := py_rfind l '\x7d' + 1
  if 0 ≤ start_idx ∧ start_idx < end_idx then
    let json_str := String.mk ((l.drop start_idx.toNat).take (end_idx - start_idx).toNat)
    match jp json_str with
    | some d =>
      if (d.lookup "sql_query").isSome && (d.lookup "explanation").isSome then
        some ⟨(d.lookup "sql_query").getD "", (d.lookup "explanation").getD ""⟩
      else none
    | none => none
  else none

/-- `llm_client.py` lines 121-130 (method 4): the whole content parsed as a
key/value object. -/
def whole_json_method (jp : JsonParse) (content : String) : Option SQLGenerationResponse :=
  match jp content with
  | some d =>
    if (d.lookup "sql_query").isSome && (d.lookup "explanation").isSome then
      some ⟨(d.lookup "sql_query").getD "", (d.lookup "explanation").getD ""⟩
    else none
  | none => none

/-- The line-capture loop of method 5 (`llm_client.py` lines 138-143): start
capturing at the first line containing `SELECT` (case-insensitive), stop at
and including the first captured line containing `;`. -/
def capture_sql_lines : List String → Bool → List String
  | [], _ => []
  | line :: rest, capture =>
    if contains_sub (py_upper line) "SELECT" || capture then
      if contains_sub line ";" then [line]
      else line :: capture_sql_lines rest true
    else capture_sql_lines rest capture

/-- `llm_client.py` lines 145-148: join the captured lines with spaces, strip,
and drop one trailing `;`. -/
def joinStrip (ls : List String) : String :=
  let sq := py_strip (py_join " " ls)
  if sq.toList.getLast? = some ';' then String.mk sq.toList.dropLast else sq

/-- `llm_client.py` lines 132-153 (method 5): keyword rescue, only attempted
when the content mentions `SELECT` or `FROM` (case-insensitive). -/
def keyword_method (content : String) : Option SQLGenerationResponse :=
  if contains_sub (py_upper content) "SELECT" || contains_sub (py_upper content) "FROM" then
    match capture_sql_lines (py_split "\n" content) false with
    | [] => none
    | l :: ls => some ⟨joinStrip (l :: ls), "Extracted SQL query from text"⟩
  else none

/-- `llm_client.py` lines 155-159: the last-resort parse-error result. -/
def parse_error_result (content : String) : SQLGenerationResponse :=
  ⟨"", "Error parsing LLM response: " ++ py_take 100 content ++ "..."⟩

/-- `LLMClient._extract_sql_from_response` (`llm_client.py` lines 59-159).
Method 1 runs only when the content contains a ` ```json ` tag; method 2 is an
`elif`, so it runs only when the content contains ` ``` ` but not ` ```json `;
methods 3, 4 and 5 then run in order, each falling through on failure. -/
def extract_sql_from_response (jp : JsonParse) (raw : String) : SQLGenerationResponse :=
  let content := py_strip raw
  let m12 : Option SQLGenerationResponse :=
    if contains_sub content "```json" then json_block_method jp content
    else code_block_method content
  match m12 with
  | some r => r
  | none =>
    match json_object_method jp content with
    | some r => r
    | none =>
      match whole_json_method jp content with
      | some r => r
      | none =>
        match keyword_method content with
        | some r => r
        | none => parse_error_result content

/-- The oracles a `process_query` run interacts with.  `gen_content` is the
transport outcome of the initial `generate_sql` call; `improve_content i sql err`
the transport outcome of the `i`-th `improve_sql` call (the index accounts for
the generator's non-determinism across calls; `sql` and `err` are the arguments
the source passes).  `engine i sql` is the sqlite cursor's answer to the `i`-th
execution.  The natural-language query and schema snapshot only influence the
oracles' behaviour, so they are folded into them. -/
structure AgentEnv where
  jp : JsonParse
  gen_content : Except String String
  improve_content : Nat → String → String → Except String String
  engine : Nat → String → Except String (List String × List (String → SQLValue))

/-- `LLMClient.generate_sql` (`llm_client.py` lines 218-226): extract from the
content on success, or return the empty-SQL error dictionary when the try
block raised. -/
def llm_generate_sql (env : AgentEnv) : SQLGenerationResponse :=
  match env.gen_content with
  | Except.error e => ⟨"", "Error generating SQL: " ++ e⟩
  | Except.ok content => extract_sql_from_response env.jp content

/-- `LLMClient.improve_sql` (`llm_client.py` lines 282-290), for the `i`-th
repair call with failed SQL `sql` and error message `err`. -/
def llm_improve_sql (env : AgentEnv) (i : Nat) (sql err : String) : SQLGenerationResponse :=
  match env.improve_content i sql err with
  | Except.error e => ⟨"", "Error improving SQL: " ++ e⟩
  | Except.ok content => extract_sql_from_response env.jp content

/-- `SQLAgent.execute_sql` (`sql_agent.py` lines 79-103) against one cursor
answer: a `sqlite3.Error` becomes `(None, "SQL execution error: " + str(e))`;
an empty fetch becomes the empty success result; otherwise the description
names become the columns and each row is projected through them. -/
def execute_sql (eng : String → Except String (List String × List (String → SQLValue)))
    (sql_query : String) : Option SQLQueryResult × Option String :=
  match eng sql_query with
  | Except.error e => (none, some ("SQL execution error: " ++ e))
  | Except.ok (desc, rows) =>
    match rows with
    | [] => (some ⟨[], [], 0⟩, none)
    | r :: rs =>
      let columns := desc
      let row_data := (r :: rs).map (fun row => columns.map row)
      (some ⟨columns, row_data, row_data.length⟩, none)

/-- Ghost trace of the externally visible calls the repair loop makes:
one `execOk`/`execFail` per `execute_sql` call, one `improveCall` per
`improve_sql` call, in program order. -/
inductive AgentEvent where
  | execOk (sql : String)
  | execFail (sql : String) (msg : String)
  | improveCall (sql : String) (msg : String)
deriving DecidableEq

/-- The loop state of `SQLAgent.process_query` at exit, plus the ghost call
trace. -/
structure LoopOut where
  current_sql : String
  current_explanation : String
  result : Option SQLQueryResult
  error : Option String
  improvement_history : List SQLImprovementAttempt
  trace : List AgentEvent
deriving DecidableEq

/-- The `while attempts < self.max_retries` loop of `SQLAgent.process_query`
(`sql_agent.py` lines 139-164).  `fuel` is `max_retries - attempts` (the loop
guard holds iff `fuel > 0`); `result`/`error` are the Python variables of the
same names carried across iterations; `trace` is ghost instrumentation
recording the calls made (it influences nothing). -/
def process_loop (env : AgentEnv) (fuel attempts : Nat)
    (current_sql current_explanation : String)
    (result : Option SQLQueryResult) (error : Option String)
    (history : List SQLImprovementAttempt) (trace : List AgentEvent) : LoopOut :=
  match fuel with
  | 0 => ⟨current_sql, current_explanation, result, error, history, trace⟩
  | fuel' + 1 =>
    let p := execute_sql (env.engine attempts) current_sql
    match p.2 with
    | none =>
      ⟨current_sql, current_explanation, p.1, none, history,
        trace ++ [AgentEvent.execOk current_sql]⟩
    | some err =>
      let history2 := history ++ [⟨attempts + 1, current_sql, err⟩]
      let improved := llm_improve_sql env attempts current_sql err
      let trace2 := trace ++ [AgentEvent.execFail current_sql err,
        AgentEvent.improveCall current_sql err]
      if improved.sql_query = "" ∨ improved.sql_query = current_sql then
        ⟨current_sql, current_explanation, p.1, some err, history2, trace2⟩
      else
        process_loop env fuel' (attempts + 1) improved.sql_query
          (current_explanation ++ "\n\nImproved SQL (attempt " ++ toString (attempts + 1)
            ++ "): " ++ improved.explanation)
          p.1 (some err) history2 trace2

/-- `SQLAgent.process_query` (`sql_agent.py` lines 114-174), paired with the
ghost call trace of its repair loop. -/
def process_query_run (env : AgentEnv) (max_retries : Nat) (natural_query : String) :
    SQLAgentResponse × List AgentEvent :=
  let sql_response := llm_generate_sql env
  let current_sql := sql_response.sql_query
  let current_explanation := sql_response.explanation
  if current_sql = "" then
    (⟨natural_query, "", "Failed to generate SQL: " ++ current_explanation,
      none, some "Could not generate SQL query", none⟩, [])
  else
    let out := process_loop env max_retries 0 current_sql current_explanation none none [] []
    (⟨natural_query, out.current_sql, out.current_explanation, out.result, out.error,
      if out.improvement_history = [] then none else some out.improvement_history⟩,
     out.trace)

/-- `SQLAgent.process_query`: the returned response. -/
def process_query (env : AgentEnv) (max_retries : Nat) (natural_query : String) :
    SQLAgentResponse :=
  (process_query_run env max_retries natural_query).1

/-- The attempt history of a response, reading the source's `None` as the
empty history (the spec's `attempts` sequence). -/
def historyOf (r : SQLAgentResponse) : List SQLImprovementAttempt :=
  r.improvement_history.getD []

/-- Spec-side description (from the spec's repair-loop section): the trace a
run should produce given its list of failed executions `fs` — each failure
immediately followed by its repair call — ending in `tail` (empty, or a single
successful execution). -/
def specTrace : List (String × String) → List AgentEvent → List AgentEvent
  | [], tail => tail
  | (s, m) :: t, tail =>
    AgentEvent.execFail s m :: AgentEvent.improveCall s m :: specTrace t tail

/-- Spec-side description: the attempt history a run should produce from its
failed executions, numbered consecutively from `n`. -/
def mkHistory : Nat → List (String × String) → List SQLImprovementAttempt
  | _, [] => []
  | n, (s, m) :: t => ⟨n, s, m⟩ :: mkHistory (n + 1) t

/-- The failed executions recorded in a trace. -/
def failuresOf (tr : List AgentEvent) : List (String × String) :=
  tr.filterMap (fun ev => match ev with
    | AgentEvent.execFail s m => some (s, m)
    | _ => none)

/-- Whether an event is a repair-generation call. -/
def isImproveEvent : AgentEvent → Bool
  | AgentEvent.improveCall _ _ => true
  | _ => false

/-- The number of repair cycles (repair-generation calls) in a trace. -/
def countImproveCalls (tr : List AgentEvent) : Nat :=
  tr.countP isImproveEvent

/-- The attempt numbers of a history are `n, n+1, n+2, ...` in order. -/
def numberedFrom : Nat → List SQLImprovementAttempt → Prop
  | _, [] => True
  | n, a :: t => a.attempt = n ∧ numberedFrom (n + 1) t

/-- A value stored in a parsed JSON dictionary: a string, or JSON `null`
(Python `None`).  `null` is the non-string case relevant to the pydantic
validation path — a `str` field rejects `None` under pydantic v1 and v2 alike.
(Other non-string JSON values are not modelled.) -/
inductive PyVal where
  | str (s : String)
  | null
deriving DecidableEq

/-- Full oracle for Python `json.loads`: like `JsonParse`, but dictionary
values may be JSON `null`, the case the string-restricted model cannot
represent. -/
abbrev JsonParseFull := String → Option (List (String × PyVal))

/-- Python `result.get(k, "")` on a parsed dictionary with full values. -/
def pv_get (d : List (String × PyVal)) (k : String) : PyVal :=
  (d.lookup k).getD (PyVal.str "")

/-- The shared dictionary acceptance step of methods 1, 3 and 4: require both
keys, return the two values unchanged (`llm_client.py` lines 77-81, 113-117,
124-128). -/
def dict_extract (d : List (String × PyVal)) : Option (PyVal × PyVal) :=
  if (d.lookup "sql_query").isSome && (d.lookup "explanation").isSome then
    some (pv_get d "sql_query", pv_get d "explanation")
  else none

/-- Method 1 over the full value model (`llm_client.py` lines 73-83). -/
def json_block_method_full (jp : JsonParseFull) (content : String) : Option (PyVal × PyVal) :=
  if contains_sub content "```json" then
    let json_content := py_strip ((py_split "```" ((py_split "```json" content).getD 1 "")).getD 0 "")
    match jp json_content with
    | some d => dict_extract d
    | none => none
  else none

/-- Method 3 over the full value model (`llm_client.py` lines 106-119). -/
def json_object_method_full (jp : JsonParseFull) (content : String) : Option (PyVal × PyVal) :=
  let l := content.toList
  let start_idx := py_find l '\x7b'
  let end_idx := py_rfind l '\x7d' + 1
  if 0 ≤ start_idx ∧ start_idx < end_idx then
    let json_str := String.mk ((l.drop start_idx.toNat).take (end_idx - start_idx).toNat)
    match jp json_str with
    | some d => dict_extract d
    | none => none
  else none

/-- Method 4 over the full value model (`llm_client.py` lines 121-130). -/
def whole_json_method_full (jp : JsonParseFull) (content : String) : Option (PyVal × PyVal) :=
  match jp content with
  | some d => dict_extract d
  | none => none

/-- A result of the string-producing methods (2, 5, last resort) viewed in the
full value model. -/
def liftSG (r : SQLGenerationResponse) : PyVal × PyVal :=
  (PyVal.str r.sql_query, PyVal.str r.explanation)

/-- `LLMClient._extract_sql_from_response` over the full value model: the pair
of dictionary values returned for `sql_query` and `explanation`.  The control
flow is that of `extract_sql_from_response`; the non-JSON methods always
produce strings, the JSON methods pass dictionary values through unchanged. -/
def extract_sql_from_response_full (jp : JsonParseFull) (raw : String) : PyVal × PyVal :=
  let content := py_strip raw
  let m12 : Option (PyVal × PyVal) :=
    if contains_sub content "```json" then json_block_method_full jp content
    else (code_block_method content).map liftSG
  match m12 with
  | some r => r
  | none =>
    match json_object_method_full jp content with
    | some r => r
    | none =>
      match whole_json_method_full jp content with
      | some r => r
      | none =>
        match keyword_method content with
        | some r => liftSG r
        | none => liftSG (parse_error_result content)

/-- The exception that can escape `process_query`: pydantic raising on a
`SQLGenerationResponse(...)` construction with a non-string field value. -/
inductive AgentExn where
  | validationError
deriving DecidableEq

/-- The pydantic `SQLGenerationResponse(sql_query=..., explanation=...)`
construction (`sql_agent.py` lines 74-77 and 109-112): both fields are typed
`str`, so a `None` value raises `ValidationError`. -/
def validate_generation : PyVal × PyVal → Except AgentExn SQLGenerationResponse
  | (PyVal.str a, PyVal.str b) => Except.ok ⟨a, b⟩
  | _ => Except.error AgentExn.validationError

/-- The oracles of a run in the full value model (fields as in `AgentEnv`). -/
structure AgentEnvFull where
  jp : JsonParseFull
  gen_content : Except String String
  improve_content : Nat → String → String → Except String String
  engine : Nat → String → Except String (List String × List (String → SQLValue))

/-- `SQLAgent.generate_sql` (`sql_agent.py` lines 70-77) in the full model:
`LLMClient.generate_sql` swallows transport errors into a string-valued
dictionary; the pydantic construction then validates the values and may
raise. -/
def agent_generate_sql_full (env : AgentEnvFull) : Except AgentExn SQLGenerationResponse :=
  match env.gen_content with
  | Except.error e =>
    validate_generation (PyVal.str "", PyVal.str ("Error generating SQL: " ++ e))
  | Except.ok content => validate_generation (extract_sql_from_response_full env.jp content)

/-- `SQLAgent.improve_sql` (`sql_agent.py` lines 105-112) in the full model. -/
def agent_improve_sql_full (env : AgentEnvFull) (i : Nat) (sql err : String) :
    Except AgentExn SQLGenerationResponse :=
  match env.improve_content i sql err with
  | Except.error e =>
    validate_generation (PyVal.str "", PyVal.str ("Error improving SQL: " ++ e))
  | Except.ok content => validate_generation (extract_sql_from_response_full env.jp content)

/-- The repair loop in the full model: identical to `process_loop` except that
the `improve_sql` call can raise, aborting the run (the record list and trace
die with the frame, as in the source). -/
def process_loop_full (env : AgentEnvFull) (fuel attempts : Nat)
    (current_sql current_explanation : String)
    (result : Option SQLQueryResult) (error : Option String)
    (history : List SQLImprovementAttempt) (trace : List AgentEvent) :
    Except AgentExn LoopOut :=
  match fuel with
  | 0 => Except.ok ⟨current_sql, current_explanation, result, error, history, trace⟩
  | fuel' + 1 =>
    let p := execute_sql (env.engine attempts) current_sql
    match p.2 with
    | none =>
      Except.ok ⟨current_sql, current_explanation, p.1, none, history,
        trace ++ [AgentEvent.execOk current_sql]⟩
    | some err =>
      let history2 := history ++ [⟨attempts + 1, current_sql, err⟩]
      let trace2 := trace ++ [AgentEvent.execFail current_sql err,
        AgentEvent.improveCall current_sql err]
      match agent_improve_sql_full env attempts current_sql err with
      | Except.error ex => Except.error ex
      | Except.ok improved =>
        if improved.sql_query = "" ∨ improved.sql_query = current_sql then
          Except.ok ⟨current_sql, current_explanation, p.1, some err, history2, trace2⟩
        else
          process_loop_full env fuel' (attempts + 1) improved.sql_query
            (current_explanation ++ "\n\nImproved SQL (attempt " ++ toString (attempts + 1)
              ++ "): " ++ improved.explanation)
            p.1 (some err) history2 trace2

/-- `SQLAgent.process_query` in the full model: a pydantic `ValidationError`
raised by `generate_sql` or `improve_sql` escapes the call. -/
def process_query_run_full (env : AgentEnvFull) (max_retries : Nat) (natural_query : String) :
    Except AgentExn (SQLAgentResponse × List AgentEvent) :=
  match agent_generate_sql_full env with
  | Except.error ex => Except.error ex
  | Except.ok sql_response =>
    let current_sql := sql_response.sql_query
    let current_explanation := sql_response.explanation
    if current_sql = "" then
      Except.ok (⟨natural_query, "", "Failed to generate SQL: " ++ current_explanation,
        none, some "Could not generate SQL query", none⟩, [])
    else
      match process_loop_full env max_retries 0 current_sql current_explanation none none [] [] with
      | Except.error ex => Except.error ex
      | Except.ok out =>
        Except.ok (⟨natural_query, out.current_sql, out.current_explanation, out.result,
          out.error,
          if out.improvement_history = [] then none else some out.improvement_history⟩,
         out.trace)

/-- One-iteration halt: from any loop state with budget left, if the current
execution fails and the repair call stagnates (empty or textually identical
SQL), the loop returns at once with that failure as the final error, exactly
one further attempt record, and no further calls. -/
lemma process_loop_stagnation (env : AgentEnv) (f attempts : Nat) (sql expl : String)
    (r0 : Option SQLQueryResult) (e0 : Option String)
    (h0 : List SQLImprovementAttempt) (tr0 : List AgentEvent) (msg : String)
    (hexec : execute_sql (env.engine attempts) sql = (none, some msg))
    (himp : (llm_improve_sql env attempts sql msg).sql_query = "" ∨
      (llm_improve_sql env attempts sql msg).sql_query = sql) :
    process_loop env (f + 1) attempts sql expl r0 e0 h0 tr0 =
      ⟨sql, expl, none, some msg, h0 ++ [⟨attempts + 1, sql, msg⟩],
        tr0 ++ [AgentEvent.execFail sql msg, AgentEvent.improveCall sql msg]⟩ := by
  simp only [process_loop, hexec]
  rw [if_pos himp]

/-- C1: whenever a repair generation returns SQL that is empty or identical to
the SQL that just failed, the loop halts at once with that execution's failure
message as the final error, making no further generation or execution call
(first conjunct, stated at an arbitrary reachable loop state); in particular,
when the initial generation and the first repair produce identical SQL, the
response carries exactly one attempt record (second conjunct). -/
theorem claim_c1_stagnation_halts :
    (∀ (env : AgentEnv) (f attempts : Nat) (sql expl : String)
        (r0 : Option SQLQueryResult) (e0 : Option String)
        (h0 : List SQLImprovementAttempt) (tr0 : List AgentEvent) (msg : String),
        execute_sql (env.engine attempts) sql = (none, some msg) →
        ((llm_improve_sql env attempts sql msg).sql_query = "" ∨
          (llm_improve_sql env attempts sql msg).sql_query = sql) →
        process_loop env (f + 1) attempts sql expl r0 e0 h0 tr0 =
          ⟨sql, expl, none, some msg, h0 ++ [⟨attempts + 1, sql, msg⟩],
            tr0 ++ [AgentEvent.execFail sql msg, AgentEvent.improveCall sql msg]⟩) ∧
    (∀ (env : AgentEnv) (mr : Nat) (q s0 expl msg : String),
        llm_generate_sql env = ⟨s0, expl⟩ →
        s0 ≠ "" →
        execute_sql (env.engine 0) s0 = (none, some msg) →
        ((llm_improve_sql env 0 s0 msg).sql_query = "" ∨
          (llm_improve_sql env 0 s0 msg).sql_query = s0) →
        1 ≤ mr →
        process_query_run env mr q =
          (⟨q, s0, expl, none, some msg, some [⟨1, s0, msg⟩]⟩,
           [AgentEvent.execFail s0 msg, AgentEvent.improveCall s0 msg])) := by
  constructor
  · exact process_loop_stagnation
  · intro env mr q s0 expl msg hgen hs0 hexec himp hmr
    obtain ⟨m, rfl⟩ : ∃ m, mr = m + 1 := ⟨mr - 1, by omega⟩
    simp only [process_query_run, hgen]
    rw [if_neg hs0]
    rw [process_loop_stagnation env m 0 s0 expl none none [] [] msg hexec himp]
    simp

/-- A parse oracle that fails on every input.  On every string it is actually
applied to in the concrete runs below, Python's `json.loads` also fails, so it
is a faithful instantiation for those runs. -/
def jpNone : JsonParse := fun _ => none

/-- Concrete environment for the stagnation witness: generation and repair
both produce `SELECT 1`, and the engine always rejects it. -/
def envStagnate : AgentEnv :=
  { jp := jpNone
    gen_content := Except.ok "SELECT 1"
    improve_content := fun _ _ _ => Except.ok "SELECT 1"
    engine := fun _ _ => Except.error "no such table: t" }

/-- Witness for C1 at a concrete run: initial generation and first repair both
yield `SELECT 1`, the engine rejects it, and the run halts after exactly one
attempt record. -/
theorem claim_c1_witness :
    process_query_run envStagnate 3 "list t" =
      (⟨"list t", "SELECT 1", "Extracted SQL query from text", none,
        some "SQL execution error: no such table: t",
        some [⟨1, "SELECT 1", "SQL execution error: no such table: t"⟩]⟩,
       [AgentEvent.execFail "SELECT 1" "SQL execution error: no such table: t",
        AgentEvent.improveCall "SELECT 1" "SQL execution error: no such table: t"]) :=
  claim_c1_stagnation_halts.2 envStagnate 3 "list t" "SELECT 1"
    "Extracted SQL query from text" "SQL execution error: no such table: t"
    (by decide) (by decide) (by decide) (Or.inr (by decide)) (by decide)

/-- C6: if the very first generation yields an empty SQL query, `process_query`
returns at once with error exactly `"Could not generate SQL query"`, no query
result, and an empty attempt history (the source's `None`), executing nothing. -/
theorem claim_c6_empty_initial_generation (env : AgentEnv) (mr : Nat) (q : String)
    (h : (llm_generate_sql env).sql_query = "") :
    process_query env mr q =
      ⟨q, "", "Failed to generate SQL: " ++ (llm_generate_sql env).explanation,
        none, some "Could not generate SQL query", none⟩ ∧
    historyOf (process_query env mr q) = [] ∧
    (process_query_run env mr q).2 = [] := by
  refine ⟨?_, ?_, ?_⟩ <;>
    simp [process_query, process_query_run, historyOf, h]

/-- Concrete environment whose transport fails on the initial generation. -/
def envGenFail : AgentEnv :=
  { jp := jpNone
    gen_content := Except.error "connection refused"
    improve_content := fun _ _ _ => Except.error "connection refused"
    engine := fun _ _ => Except.error "no db" }

/-- Witness for C6: a failed transport yields an empty initial SQL query, and
the response is the immediate terminal error with no attempts and no
execution. -/
theorem claim_c6_witness :
    process_query envGenFail 3 "q" =
      ⟨"q", "", "Failed to generate SQL: Error generating SQL: connection refused",
        none, some "Could not generate SQL query", none⟩ ∧
    historyOf (process_query envGenFail 3 "q") = [] ∧
    (process_query_run envGenFail 3 "q").2 = [] :=
  claim_c6_empty_initial_generation envGenFail 3 "q" (by decide)

/-- Loop invariant: the loop appends to the trace one failure/repair pair per
failed execution (optionally ending in one successful execution), and appends
to the history exactly the matching attempt records, numbered from
`attempts + 1`. -/
lemma process_loop_trace_spec (env : AgentEnv) :
    ∀ (fuel attempts : Nat) (sql expl : String) (r0 : Option SQLQueryResult)
      (e0 : Option String) (h0 : List SQLImprovementAttempt) (tr0 : List AgentEvent),
      ∃ F tail,
        (process_loop env fuel attempts sql expl r0 e0 h0 tr0).trace
          = tr0 ++ specTrace F tail ∧
        (process_loop env fuel attempts sql expl r0 e0 h0 tr0).improvement_history
          = h0 ++ mkHistory (attempts + 1) F ∧
        (tail = [] ∨ ∃ s, tail = [AgentEvent.execOk s]) := by
  intro fuel
  induction fuel with
  | zero =>
    intro a sql expl r0 e0 h0 tr0
    exact ⟨[], [], by simp [process_loop, specTrace], by simp [process_loop, mkHistory],
      Or.inl rfl⟩
  | succ f ih =>
    intro a sql expl r0 e0 h0 tr0
    cases hx : (execute_sql (env.engine a) sql).2 with
    | none =>
      refine ⟨[], [AgentEvent.execOk sql], ?_, ?_, Or.inr ⟨sql, rfl⟩⟩
      · simp [process_loop, hx, specTrace]
      · simp [process_loop, hx, mkHistory]
    | some err =>
      by_cases himp : (llm_improve_sql env a sql err).sql_query = "" ∨
          (llm_improve_sql env a sql err).sql_query = sql
      · refine ⟨[(sql, err)], [], ?_, ?_, Or.inl rfl⟩
        · simp [process_loop, hx, if_pos himp, specTrace]
        · simp [process_loop, hx, if_pos himp, mkHistory]
      · have hred : process_loop env (f + 1) a sql expl r0 e0 h0 tr0
            = process_loop env f (a + 1) (llm_improve_sql env a sql err).sql_query
                (expl ++ "\n\nImproved SQL (attempt " ++ toString (a + 1)
                  ++ "): " ++ (llm_improve_sql env a sql err).explanation)
                (execute_sql (env.engine a) sql).1 (some err)
                (h0 ++ [⟨a + 1, sql, err⟩])
                (tr0 ++ [AgentEvent.execFail sql err, AgentEvent.improveCall sql err]) := by
          simp only [process_loop, hx]
          rw [if_neg himp]
        obtain ⟨F, tail, htr, hh, htail⟩ := ih (a + 1)
          (llm_improve_sql env a sql err).sql_query
          (expl ++ "\n\nImproved SQL (attempt " ++ toString (a + 1)
            ++ "): " ++ (llm_improve_sql env a sql err).explanation)
          (execute_sql (env.engine a) sql).1 (some err)
          (h0 ++ [⟨a + 1, sql, err⟩])
          (tr0 ++ [AgentEvent.execFail sql err, AgentEvent.improveCall sql err])
        refine ⟨(sql, err) :: F, tail, ?_, ?_, htail⟩
        · rw [hred, htr]; simp [specTrace]
        · rw [hred, hh]; simp [mkHistory]

/-- The spec-side trace of a run with failures `F` records exactly `F` as its
failed executions. -/
lemma failuresOf_specTrace (F : List (String × String)) (tail : List AgentEvent)
    (htail : tail = [] ∨ ∃ s, tail = [AgentEvent.execOk s]) :
    failuresOf (specTrace F tail) = F := by
  induction F with
  | nil => rcases htail with rfl | ⟨s, rfl⟩ <;> simp [specTrace, failuresOf]
  | cons p t ih =>
    obtain ⟨s, m⟩ := p
    simpa [specTrace, failuresOf] using ih

/-- Reading back the optional history field recovers the accumulated list. -/
lemma getD_history (l : List SQLImprovementAttempt) :
    (if l = [] then (none : Option (List SQLImprovementAttempt)) else some l).getD [] = l := by
  split <;> simp_all

/-- Whole-run trace/history correspondence: the returned attempt history is
exactly the run's failed executions, numbered from 1, each failure immediately
followed in the trace by its repair call. -/
lemma run_trace_spec (env : AgentEnv) (mr : Nat) (q : String) :
    ∃ F tail,
      (process_query_run env mr q).2 = specTrace F tail ∧
      (tail = [] ∨ ∃ s, tail = [AgentEvent.execOk s]) ∧
      historyOf (process_query_run env mr q).1 = mkHistory 1 F ∧
      failuresOf (process_query_run env mr q).2 = F := by
  by_cases hsql : (llm_generate_sql env).sql_query = ""
  · refine ⟨[], [], ?_, Or.inl rfl, ?_, ?_⟩ <;>
      simp [process_query_run, historyOf, hsql, specTrace, mkHistory, failuresOf]
  · obtain ⟨F, tail, htr, hh, htail⟩ := process_loop_trace_spec env mr 0
      (llm_generate_sql env).sql_query (llm_generate_sql env).explanation none none [] []
    refine ⟨F, tail, ?_, htail, ?_, ?_⟩
    · simp only [process_query_run]
      rw [if_neg hsql]
      simpa using htr
    · simp only [process_query_run, historyOf]
      rw [if_neg hsql]
      simp only [getD_history]
      simpa using hh
    · simp only [process_query_run]
      rw [if_neg hsql]
      simp only []
      have : (process_loop env mr 0 (llm_generate_sql env).sql_query
          (llm_generate_sql env).explanation none none [] []).trace = specTrace F tail := by
        simpa using htr
      rw [this]
      exact failuresOf_specTrace F tail htail

/-- C2: every failed execution produces exactly one attempt record and is
immediately followed in the call trace by the repair call it feeds — encoded
by the run trace having the shape `specTrace F tail` (one
`execFail`/`improveCall` pair per failure, then at most one successful
execution) with the history equal to `mkHistory 1 F`; successful executions
and repair calls themselves produce no records, and this holds however the
loop terminates. -/
theorem claim_c2_attempt_records (env : AgentEnv) (mr : Nat) (q : String) :
    ∃ F tail,
      (process_query_run env mr q).2 = specTrace F tail ∧
      (tail = [] ∨ ∃ s, tail = [AgentEvent.execOk s]) ∧
      historyOf (process_query_run env mr q).1 = mkHistory 1 F ∧
      failuresOf (process_query_run env mr q).2 = F :=
  run_trace_spec env mr q

/-- Loop invariant: each unit of remaining budget admits at most one attempt
record and at most one repair call. -/
lemma process_loop_budget (env : AgentEnv) :
    ∀ (fuel attempts : Nat) (sql expl : String) (r0 : Option SQLQueryResult)
      (e0 : Option String) (h0 : List SQLImprovementAttempt) (tr0 : List AgentEvent),
      (process_loop env fuel attempts sql expl r0 e0 h0 tr0).improvement_history.length
        ≤ h0.length + fuel ∧
      countImproveCalls (process_loop env fuel attempts sql expl r0 e0 h0 tr0).trace
        ≤ countImproveCalls tr0 + fuel := by
  intro fuel
  induction fuel with
  | zero =>
    intro a sql expl r0 e0 h0 tr0
    simp [process_loop]
  | succ f ih =>
    intro a sql expl r0 e0 h0 tr0
    cases hx : (execute_sql (env.engine a) sql).2 with
    | none =>
      constructor
      · simp [process_loop, hx]
      · simp [process_loop, hx, countImproveCalls, List.countP_append, List.countP_cons,
          isImproveEvent]
    | some err =>
      have hblock2 : ∀ tr : List AgentEvent,
          countImproveCalls (tr ++ [AgentEvent.execFail sql err, AgentEvent.improveCall sql err])
            = countImproveCalls tr + 1 := by
        intro tr
        simp [countImproveCalls, List.countP_append, List.countP_cons, isImproveEvent]
      by_cases himp : (llm_improve_sql env a sql err).sql_query = "" ∨
          (llm_improve_sql env a sql err).sql_query = sql
      · constructor
        · simp [process_loop, hx, if_pos himp]
        · have : (process_loop env (f + 1) a sql expl r0 e0 h0 tr0).trace
              = tr0 ++ [AgentEvent.execFail sql err, AgentEvent.improveCall sql err] := by
            simp [process_loop, hx, if_pos himp]
          rw [this, hblock2]
          omega
      · have hred : process_loop env (f + 1) a sql expl r0 e0 h0 tr0
            = process_loop env f (a + 1) (llm_improve_sql env a sql err).sql_query
                (expl ++ "\n\nImproved SQL (attempt " ++ toString (a + 1)
                  ++ "): " ++ (llm_improve_sql env a sql err).explanation)
                (execute_sql (env.engine a) sql).1 (some err)
                (h0 ++ [⟨a + 1, sql, err⟩])
                (tr0 ++ [AgentEvent.execFail sql err, AgentEvent.improveCall sql err]) := by
          simp only [process_loop, hx]
          rw [if_neg himp]
        obtain ⟨ih1, ih2⟩ := ih (a + 1) (llm_improve_sql env a sql err).sql_query
          (expl ++ "\n\nImproved SQL (attempt " ++ toString (a + 1)
            ++ "): " ++ (llm_improve_sql env a sql err).explanation)
          (execute_sql (env.engine a) sql).1 (some err)
          (h0 ++ [⟨a + 1, sql, err⟩])
          (tr0 ++ [AgentEvent.execFail sql err, AgentEvent.improveCall sql err])
        rw [hred]
        constructor
        · simp only [List.length_append, List.length_cons, List.length_nil] at ih1
          omega
        · rw [hblock2] at ih2
          omega

/-- C3: the repair loop performs at most `max_retries` repair cycles, and the
attempt history of the returned response has length at most `max_retries`. -/
theorem claim_c3_retry_budget (env : AgentEnv) (mr : Nat) (q : String) :
    (historyOf (process_query env mr q)).length ≤ mr ∧
    countImproveCalls (process_query_run env mr q).2 ≤ mr := by
  by_cases hsql : (llm_generate_sql env).sql_query = ""
  · simp [process_query, process_query_run, historyOf, hsql, countImproveCalls]
  · obtain ⟨h1, h2⟩ := process_loop_budget env mr 0
      (llm_generate_sql env).sql_query (llm_generate_sql env).explanation none none [] []
    constructor
    · simp only [process_query, process_query_run, historyOf]
      rw [if_neg hsql]
      simp only [getD_history]
      simpa using h1
    · simp only [process_query_run]
      rw [if_neg hsql]
      simpa [countImproveCalls, isImproveEvent] using h2

/-- `execute_sql` returns either a result with no error, or an error with no
result. -/
lemma execute_sql_shape (eng : String → Except String (List String × List (String → SQLValue)))
    (sql : String) :
    (∃ res, execute_sql eng sql = (some res, none)) ∨
    (∃ m, execute_sql eng sql = (none, some m)) := by
  unfold execute_sql
  cases eng sql with
  | error e => exact Or.inr ⟨_, rfl⟩
  | ok dr =>
    obtain ⟨desc, rows⟩ := dr
    cases rows with
    | nil => exact Or.inl ⟨_, rfl⟩
    | cons r rs => exact Or.inl ⟨_, rfl⟩

/-- Loop invariant: once at least one execution has happened (or the incoming
state already satisfies it), the final error is absent iff the final result is
present. -/
lemma process_loop_dichotomy (env : AgentEnv) :
    ∀ (fuel attempts : Nat) (sql expl : String) (r0 : Option SQLQueryResult)
      (e0 : Option String) (h0 : List SQLImprovementAttempt) (tr0 : List AgentEvent),
      (1 ≤ fuel ∨ (e0 = none ↔ r0 ≠ none)) →
      ((process_loop env fuel attempts sql expl r0 e0 h0 tr0).error = none ↔
        (process_loop env fuel attempts sql expl r0 e0 h0 tr0).result ≠ none) := by
  intro fuel
  induction fuel with
  | zero =>
    intro a sql expl r0 e0 h0 tr0 h
    rcases h with h | h
    · omega
    · simpa [process_loop] using h
  | succ f ih =>
    intro a sql expl r0 e0 h0 tr0 _
    rcases execute_sql_shape (env.engine a) sql with ⟨res, he⟩ | ⟨m, he⟩
    · simp [process_loop, he]
    · by_cases himp : (llm_improve_sql env a sql m).sql_query = "" ∨
          (llm_improve_sql env a sql m).sql_query = sql
      · simp [process_loop, he, if_pos himp]
      · have hred : process_loop env (f + 1) a sql expl r0 e0 h0 tr0
            = process_loop env f (a + 1) (llm_improve_sql env a sql m).sql_query
                (expl ++ "\n\nImproved SQL (attempt " ++ toString (a + 1)
                  ++ "): " ++ (llm_improve_sql env a sql m).explanation)
                (execute_sql (env.engine a) sql).1 (some m)
                (h0 ++ [⟨a + 1, sql, m⟩])
                (tr0 ++ [AgentEvent.execFail sql m, AgentEvent.improveCall sql m]) := by
          simp only [process_loop, he]
          rw [if_neg himp]
        rw [hred]
        apply ih
        rw [he]
        simp

/-- C9: for an agent with a positive retry budget, the returned response's
error is absent iff its query result is present — never both, never neither. -/
theorem claim_c9_error_result_dichotomy (env : AgentEnv) (mr : Nat) (q : String)
    (hmr : 1 ≤ mr) :
    ((process_query env mr q).error = none ↔ (process_query env mr q).query_result ≠ none) := by
  by_cases hsql : (llm_generate_sql env).sql_query = ""
  · simp [process_query, process_query_run, hsql]
  · have h := process_loop_dichotomy env mr 0
      (llm_generate_sql env).sql_query (llm_generate_sql env).explanation none none [] []
      (Or.inl hmr)
    simp only [process_query, process_query_run]
    rw [if_neg hsql]
    simpa using h

/-- Concrete environment for a successful run: generation yields `SELECT 1`
and the engine returns one row. -/
def envSuccess : AgentEnv :=
  { jp := jpNone
    gen_content := Except.ok "SELECT 1"
    improve_content := fun _ _ _ => Except.ok "SELECT 1"
    engine := fun _ _ => Except.ok (["x"], [fun _ => SQLValue.intV 1]) }

/-- Witness for C9 at a concrete successful run. -/
theorem claim_c9_witness :
    (process_query envSuccess 3 "q").error = none ↔
      (process_query envSuccess 3 "q").query_result ≠ none :=
  claim_c9_error_result_dichotomy envSuccess 3 "q" (by decide)

/-- `mkHistory n F` is numbered consecutively from `n`. -/
lemma numberedFrom_mkHistory (F : List (String × String)) :
    ∀ n, numberedFrom n (mkHistory n F) := by
  induction F with
  | nil => intro n; simp [mkHistory, numberedFrom]
  | cons p t ih =>
    intro n
    exact ⟨rfl, ih (n + 1)⟩

/-- C10: the attempt numbers of any returned attempt history are exactly the
consecutive integers 1, 2, ..., k in order. -/
theorem claim_c10_attempt_numbering (env : AgentEnv) (mr : Nat) (q : String) :
    numberedFrom 1 (historyOf (process_query env mr q)) := by
  obtain ⟨F, tail, _, _, hh, _⟩ := run_trace_spec env mr q
  have : historyOf (process_query env mr q) = mkHistory 1 F := hh
  rw [this]
  exact numberedFrom_mkHistory F 1

/-- C7: assuming the engine guarantee that a non-empty row set comes with a
non-empty column description (every sqlite result row has at least one
column), every success returned by `execute_sql` satisfies
`row_count = rows.length` and has empty columns iff it has empty rows; and a
successful execution with zero rows yields the empty success result, not a
failure. -/
theorem claim_c7_execution_invariant
    (eng : String → Except String (List String × List (String → SQLValue))) (sql : String)
    (hcols : ∀ desc raws, eng sql = Except.ok (desc, raws) → raws ≠ [] → desc ≠ []) :
    (∀ res, (execute_sql eng sql).1 = some res →
      res.row_count = res.rows.length ∧ (res.columns = [] ↔ res.rows = [])) ∧
    (∀ desc, eng sql = Except.ok (desc, []) → execute_sql eng sql = (some ⟨[], [], 0⟩, none)) := by
  cases heng : eng sql with
  | error e =>
    constructor
    · intro res hres
      simp [execute_sql, heng] at hres
    · intro desc h
      simp at h
  | ok dr =>
    obtain ⟨desc, rows⟩ := dr
    cases rows with
    | nil =>
      constructor
      · intro res hres
        simp [execute_sql, heng] at hres
        subst hres
        simp
      · intro desc2 _
        simp [execute_sql, heng]
    | cons r rs =>
      constructor
      · intro res hres
        simp [execute_sql, heng] at hres
        subst hres
        have hd : desc ≠ [] := hcols desc (r :: rs) heng (by simp)
        refine ⟨by simp, ?_⟩
        constructor
        · intro h
          exact absurd h hd
        · intro h
          simp at h
      · intro desc2 h
        simp at h

/-- Concrete engine for the C7 witness: one column, one row. -/
def engC7 : String → Except String (List String × List (String → SQLValue)) :=
  fun _ => Except.ok (["a"], [fun _ => SQLValue.intV 2])

/-- Witness for C7 at a concrete one-row success. -/
theorem claim_c7_witness :
    (execute_sql engC7 "SELECT a FROM t").1
      = some (⟨["a"], [[SQLValue.intV 2]], 1⟩ : SQLQueryResult) ∧
    ((1 : Nat) = ([[SQLValue.intV 2]] : List (List SQLValue)).length ∧
      ((["a"] : List String) = [] ↔ ([[SQLValue.intV 2]] : List (List SQLValue)) = [])) := by
  have h := claim_c7_execution_invariant engC7 "SELECT a FROM t" (by
    intro desc raws hh _
    simp [engC7] at hh
    obtain ⟨h1, _⟩ := hh
    subst h1
    simp)
  exact ⟨rfl, h.1 ⟨["a"], [[SQLValue.intV 2]], 1⟩ rfl⟩

/-- C4 counterexample: on a malformed ` ```json ` block, method 2 (the plain
code-block method) would succeed if attempted, yet the parser returns the
last-resort error result instead — method 2 is never attempted when the text
contains a ` ```json ` tag, because it sits in an `elif` branch. -/
theorem claim_c4_counterexample :
    contains_sub (py_strip "```json\nnot json\n```") "```json" = true ∧
    json_block_method jpNone (py_strip "```json\nnot json\n```") = none ∧
    code_block_method (py_strip "```json\nnot json\n```")
      = some ⟨"json\nnot json", "Extracted SQL query from code block"⟩ ∧
    extract_sql_from_response jpNone "```json\nnot json\n```"
      ≠ ⟨"json\nnot json", "Extracted SQL query from code block"⟩ :=
  ⟨by decide, by decide, by decide, by decide⟩

/-- C4 (amended): methods 3-5 are attempted independently with internal
failures swallowed, but methods 1 and 2 are mutually exclusive `if`/`elif`
branches: when the text contains a ` ```json ` tag and method 1 fails, the
parser skips method 2 entirely and falls through directly to method 3, then
4, then 5, then the error result. -/
theorem claim_c4_fallback_chain (jp : JsonParse) (raw : String)
    (h1 : contains_sub (py_strip raw) "```json" = true)
    (h2 : json_block_method jp (py_strip raw) = none) :
    extract_sql_from_response jp raw =
      (match json_object_method jp (py_strip raw) with
       | some r => r
       | none =>
         match whole_json_method jp (py_strip raw) with
         | some r => r
         | none =>
           match keyword_method (py_strip raw) with
           | some r => r
           | none => parse_error_result (py_strip raw)) := by
  unfold extract_sql_from_response
  simp only [h1, if_true, h2]

/-- Witness for the amended C4: on the malformed ` ```json ` block, the parser
falls through methods 3-5 to the error result, skipping method 2. -/
theorem claim_c4_witness :
    extract_sql_from_response jpNone "```json\nnot json\n```"
      = parse_error_result (py_strip "```json\nnot json\n```") :=
  (claim_c4_fallback_chain jpNone "```json\nnot json\n```" (by decide) (by decide)).trans
    (by decide)

/-- A non-whitespace character (complement of `pyIsSpace`). -/
def notSpace (c : Char) : Bool := !pyIsSpace c

/-- Uppercasing fixes whitespace characters. -/
lemma pyIsSpace_toUpper (c : Char) (h : pyIsSpace c = true) : Char.toUpper c = c := by
  simp only [pyIsSpace, Bool.or_eq_true, beq_iff_eq] at h
  rcases h with ((((h | h) | h) | h) | h) | h <;> subst h <;> decide

/-- `infix_check` decides the contiguous-infix relation. -/
lemma infix_check_iff (sub : List Char) : ∀ l, infix_check sub l = true ↔ sub <:+: l := by
  intro l
  induction l with
  | nil =>
    simp only [infix_check, List.isEmpty_iff, List.infix_nil]
  | cons c t ih =>
    simp only [infix_check, Bool.or_eq_true, List.isPrefixOf_iff_prefix, ih,
      List.infix_cons_iff]

/-- A string containing ` ```json ` contains ` ``` `. -/
lemma contains_backticks_of_json (s : String) (h : contains_sub s "```json" = true) :
    contains_sub s "```" = true := by
  have hpre : ("```".toList) <:+: ("```json".toList) := (infix_check_iff _ _).mp (by decide)
  exact (infix_check_iff _ _).mpr (hpre.trans ((infix_check_iff _ _).mp h))

/-- Dropping a whitespace prefix preserves the non-whitespace count. -/
lemma countP_notSpace_dropWhile (l : List Char) :
    (l.dropWhile pyIsSpace).countP notSpace = l.countP notSpace := by
  induction l with
  | nil => simp
  | cons c t ih =>
    by_cases hc : pyIsSpace c = true
    · simp [List.dropWhile_cons, hc, List.countP_cons, ih, notSpace]
    · simp [List.dropWhile_cons, hc]

/-- Stripping preserves the non-whitespace count. -/
lemma countP_notSpace_pyStrip (s : String) :
    (py_strip s).toList.countP notSpace = s.toList.countP notSpace := by
  show (((s.toList.dropWhile pyIsSpace).reverse.dropWhile pyIsSpace).reverse).countP notSpace
      = s.toList.countP notSpace
  rw [(((s.toList.dropWhile pyIsSpace).reverse.dropWhile pyIsSpace)).reverse_perm.countP_eq]
  rw [countP_notSpace_dropWhile]
  rw [(s.toList.dropWhile pyIsSpace).reverse_perm.countP_eq]
  rw [countP_notSpace_dropWhile]

/-- A character list whose uppercasing contains `SELECT` has at least six
non-whitespace characters. -/
lemma countP_notSpace_of_select (cl : List Char)
    (h : ("SELECT".toList) <:+: cl.map Char.toUpper) :
    6 ≤ cl.countP notSpace := by
  have hsel : ("SELECT".toList).countP notSpace = 6 := by decide
  have hle := (h.sublist).countP_le notSpace
  rw [hsel] at hle
  rw [List.countP_map] at hle
  refine le_trans hle (List.countP_mono_left ?_)
  intro x _ hx
  by_contra hcon
  have hsp : pyIsSpace x = true := by
    simp only [notSpace, Bool.not_eq_true] at hcon
    simpa using hcon
  rw [Function.comp_apply, notSpace, pyIsSpace_toUpper x hsp] at hx
  simp [notSpace, hsp] at hx

/-- The first element of a non-empty intercalation is a prefix. -/
lemma intercalate_cons_head (sep a : List Char) (t : List (List Char)) :
    ∃ rest, List.intercalate sep (a :: t) = a ++ rest := by
  cases t with
  | nil => exact ⟨[], by simp [List.intercalate]⟩
  | cons b ts =>
    refine ⟨sep ++ List.intercalate sep (b :: ts), ?_⟩
    simp [List.intercalate, List.intersperse]

/-- The line capture starts at a line containing `SELECT` whenever some line
contains it. -/
lemma capture_sql_lines_head (lines : List String)
    (h : ∃ l ∈ lines, contains_sub (py_upper l) "SELECT" = true) :
    ∃ c cs, capture_sql_lines lines false = c :: cs ∧
      contains_sub (py_upper c) "SELECT" = true := by
  induction lines with
  | nil => simp at h
  | cons x rest ih =>
    by_cases hx : contains_sub (py_upper x) "SELECT" = true
    · by_cases hsemi : contains_sub x ";" = true
      · exact ⟨x, [], by simp [capture_sql_lines, hx, hsemi], hx⟩
      · exact ⟨x, capture_sql_lines rest true,
          by simp [capture_sql_lines, hx, hsemi], hx⟩
    · obtain ⟨l, hl, hsel⟩ := h
      rcases List.mem_cons.mp hl with rfl | hl2
      · exact absurd hsel hx
      · obtain ⟨c, cs, hc, hcsel⟩ := ih ⟨l, hl2, hsel⟩
        refine ⟨c, cs, ?_, hcsel⟩
        simpa [capture_sql_lines, hx] using hc

/-- The joined-and-stripped capture of a `SELECT`-containing head line is
non-empty. -/
lemma joinStrip_ne_empty (c : String) (cs : List String)
    (hc : contains_sub (py_upper c) "SELECT" = true) :
    joinStrip (c :: cs) ≠ "" := by
  have h1 : ("SELECT".toList) <:+: c.toList.map Char.toUpper :=
    (infix_check_iff _ _).mp hc
  have h6 : 6 ≤ c.toList.countP notSpace := countP_notSpace_of_select c.toList h1
  obtain ⟨rest, hrest⟩ := intercalate_cons_head (" ".toList) c.toList (cs.map String.toList)
  have hj : (py_join " " (c :: cs)).toList = c.toList ++ rest := by
    show List.intercalate (" ".toList) ((c :: cs).map String.toList) = c.toList ++ rest
    simpa using hrest
  have h7 : 6 ≤ (py_join " " (c :: cs)).toList.countP notSpace := by
    rw [hj, List.countP_append]
    omega
  have h8 : 6 ≤ (py_strip (py_join " " (c :: cs))).toList.countP notSpace := by
    rw [countP_notSpace_pyStrip]
    exact h7
  have h9 : 6 ≤ (py_strip (py_join " " (c :: cs))).toList.length :=
    le_trans h8 (List.countP_le_length notSpace)
  simp only [joinStrip]
  split
  · intro heq
    have h10 := congrArg String.toList heq
    have h11 : (py_strip (py_join " " (c :: cs))).toList.dropLast = [] := h10
    have h12 : (py_strip (py_join " " (c :: cs))).toList.length - 1 = 0 := by
      rw [← List.length_dropLast, h11]
      rfl
    omega
  · intro heq
    have h10 := congrArg String.toList heq
    have h11 : (py_strip (py_join " " (c :: cs))).toList = [] := h10
    rw [h11] at h9
    simp at h9

/-- C8: when the content has no fenced block and no key/value structure is
recognized (methods 3 and 4 fail) but some line contains `SELECT`, the parser
returns the keyword-rescue result — the captured lines joined with spaces,
stripped, with one trailing `;` removed — which is non-empty, together with
the fixed marker explanation. -/
theorem claim_c8_keyword_rescue (jp : JsonParse) (raw : String)
    (hfence : contains_sub (py_strip raw) "```" = false)
    (h3 : json_object_method jp (py_strip raw) = none)
    (h4 : whole_json_method jp (py_strip raw) = none)
    (hguard : contains_sub (py_upper (py_strip raw)) "SELECT" = true)
    (hsel : ∃ l ∈ py_split "\n" (py_strip raw), contains_sub (py_upper l) "SELECT" = true) :
    extract_sql_from_response jp raw =
      ⟨joinStrip (capture_sql_lines (py_split "\n" (py_strip raw)) false),
        "Extracted SQL query from text"⟩ ∧
    joinStrip (capture_sql_lines (py_split "\n" (py_strip raw)) false) ≠ "" := by
  obtain ⟨c, cs, hcap, hcsel⟩ := capture_sql_lines_head _ hsel
  have hjson : contains_sub (py_strip raw) "```json" = false := by
    cases hcj : contains_sub (py_strip raw) "```json" with
    | false => rfl
    | true =>
      rw [contains_backticks_of_json _ hcj] at hfence
      cases hfence
  constructor
  · unfold extract_sql_from_response
    simp only [hjson, Bool.false_eq_true, if_false]
    have hm2 : code_block_method (py_strip raw) = none := by
      unfold code_block_method
      simp [hfence]
    rw [hm2, h3, h4]
    unfold keyword_method
    simp only [hguard, Bool.true_or, if_true, hcap]
  · rw [hcap]
    exact joinStrip_ne_empty c cs hcsel

/-- Witness for C8: free text around a `SELECT ... ;` line is rescued into a
non-empty query with the fixed marker explanation. -/
theorem claim_c8_witness :
    extract_sql_from_response jpNone "Here is it\nSELECT name FROM t;\nDone" =
      ⟨joinStrip (capture_sql_lines
          (py_split "\n" (py_strip "Here is it\nSELECT name FROM t;\nDone")) false),
        "Extracted SQL query from text"⟩ ∧
    joinStrip (capture_sql_lines
        (py_split "\n" (py_strip "Here is it\nSELECT name FROM t;\nDone")) false) ≠ "" :=
  claim_c8_keyword_rescue jpNone "Here is it\nSELECT name FROM t;\nDone"
    (by decide) (by decide) (by decide) (by decide)
    ⟨"SELECT name FROM t;", by decide, by decide⟩

/-- A successful lookup hit is a member of the dictionary. -/
lemma mem_of_lookup_eq_some (k : String) (v : PyVal) (d : List (String × PyVal))
    (h : d.lookup k = some v) : (k, v) ∈ d := by
  induction d with
  | nil => simp [List.lookup] at h
  | cons kv t ih =>
    obtain ⟨k2, v2⟩ := kv
    rw [List.lookup] at h
    cases hbeq : (k == k2) with
    | true =>
      rw [hbeq] at h
      simp at h
      subst h
      have hk : k = k2 := by simpa using hbeq
      subst hk
      exact List.mem_cons_self _ _
    | false =>
      rw [hbeq] at h
      simp at h
      exact List.mem_cons_of_mem _ (ih h)

/-- On an all-string dictionary, `result.get(k, "")` is a string. -/
lemma pv_get_str_of_all (d : List (String × PyVal))
    (hd : ∀ kv ∈ d, ∃ t, (kv : String × PyVal).2 = PyVal.str t) (k : String) :
    ∃ t, pv_get d k = PyVal.str t := by
  cases hl : d.lookup k with
  | none => exact ⟨"", by simp [pv_get, hl]⟩
  | some v =>
    obtain ⟨t, ht⟩ := hd (k, v) (mem_of_lookup_eq_some k v d hl)
    refine ⟨t, ?_⟩
    simp only [pv_get, hl, Option.getD_some]
    exact ht

/-- On an all-string dictionary, an accepted extraction is a string pair. -/
lemma dict_extract_str (d : List (String × PyVal))
    (hd : ∀ kv ∈ d, ∃ t, (kv : String × PyVal).2 = PyVal.str t)
    (r : PyVal × PyVal) (h : dict_extract d = some r) :
    ∃ a b, r = (PyVal.str a, PyVal.str b) := by
  unfold dict_extract at h
  split at h
  · obtain ⟨a, ha⟩ := pv_get_str_of_all d hd "sql_query"
    obtain ⟨b, hb⟩ := pv_get_str_of_all d hd "explanation"
    injection h with h
    exact ⟨a, b, by rw [← h, ha, hb]⟩
  · cases h

/-- All-string oracles make method 1 produce string pairs. -/
lemma json_block_method_full_str (jp : JsonParseFull)
    (hjp : ∀ s d, jp s = some d → ∀ kv ∈ d, ∃ t, (kv : String × PyVal).2 = PyVal.str t)
    (content : String) (r : PyVal × PyVal)
    (h : json_block_method_full jp content = some r) :
    ∃ a b, r = (PyVal.str a, PyVal.str b) := by
  simp only [json_block_method_full] at h
  split at h
  · split at h
    next d hd => exact dict_extract_str d (hjp _ d hd) r h
    next => cases h
  · cases h

/-- All-string oracles make method 3 produce string pairs. -/
lemma json_object_method_full_str (jp : JsonParseFull)
    (hjp : ∀ s d, jp s = some d → ∀ kv ∈ d, ∃ t, (kv : String × PyVal).2 = PyVal.str t)
    (content : String) (r : PyVal × PyVal)
    (h : json_object_method_full jp content = some r) :
    ∃ a b, r = (PyVal.str a, PyVal.str b) := by
  simp only [json_object_method_full] at h
  split at h
  · split at h
    next d hd => exact dict_extract_str d (hjp _ d hd) r h
    next => cases h
  · cases h

/-- All-string oracles make method 4 produce string pairs. -/
lemma whole_json_method_full_str (jp : JsonParseFull)
    (hjp : ∀ s d, jp s = some d → ∀ kv ∈ d, ∃ t, (kv : String × PyVal).2 = PyVal.str t)
    (content : String) (r : PyVal × PyVal)
    (h : whole_json_method_full jp content = some r) :
    ∃ a b, r = (PyVal.str a, PyVal.str b) := by
  unfold whole_json_method_full at h
  split at h
  next d hd => exact dict_extract_str d (hjp _ d hd) r h
  next => cases h

/-- All-string oracles make the whole parser produce a string pair. -/
lemma extract_sql_from_response_full_str (jp : JsonParseFull)
    (hjp : ∀ s d, jp s = some d → ∀ kv ∈ d, ∃ t, (kv : String × PyVal).2 = PyVal.str t)
    (raw : String) :
    ∃ a b, extract_sql_from_response_full jp raw = (PyVal.str a, PyVal.str b) := by
  cases hm : (if contains_sub (py_strip raw) "```json" = true
      then json_block_method_full jp (py_strip raw)
      else (code_block_method (py_strip raw)).map liftSG) with
  | some r =>
    have hr : ∃ a b, r = (PyVal.str a, PyVal.str b) := by
      split at hm
      · exact json_block_method_full_str jp hjp _ r hm
      · obtain ⟨r0, _, hlift⟩ := Option.map_eq_some'.mp hm
        exact ⟨r0.sql_query, r0.explanation, hlift.symm⟩
    obtain ⟨a, b, rfl⟩ := hr
    refine ⟨a, b, ?_⟩
    simp only [extract_sql_from_response_full]
    rw [hm]
  | none =>
    cases h3 : json_object_method_full jp (py_strip raw) with
    | some r3 =>
      obtain ⟨a, b, rfl⟩ := json_object_method_full_str jp hjp _ r3 h3
      refine ⟨a, b, ?_⟩
      simp only [extract_sql_from_response_full]
      rw [hm, h3]
    | none =>
      cases h4 : whole_json_method_full jp (py_strip raw) with
      | some r4 =>
        obtain ⟨a, b, rfl⟩ := whole_json_method_full_str jp hjp _ r4 h4
        refine ⟨a, b, ?_⟩
        simp only [extract_sql_from_response_full]
        rw [hm, h3, h4]
      | none =>
        cases h5 : keyword_method (py_strip raw) with
        | some r5 =>
          refine ⟨r5.sql_query, r5.explanation, ?_⟩
          simp only [extract_sql_from_response_full]
          rw [hm, h3, h4, h5]
          rfl
        | none =>
          refine ⟨"", (parse_error_result (py_strip raw)).explanation, ?_⟩
          simp only [extract_sql_from_response_full]
          rw [hm, h3, h4, h5]
          rfl

/-- All-string oracles make the initial generation validate without raising. -/
lemma agent_generate_sql_full_ok (env : AgentEnvFull)
    (hjp : ∀ s d, env.jp s = some d → ∀ kv ∈ d, ∃ t, (kv : String × PyVal).2 = PyVal.str t) :
    ∃ rr, agent_generate_sql_full env = Except.ok rr := by
  unfold agent_generate_sql_full
  cases hg : env.gen_content with
  | error e => exact ⟨⟨"", "Error generating SQL: " ++ e⟩, rfl⟩
  | ok content =>
    obtain ⟨a, b, h⟩ := extract_sql_from_response_full_str env.jp hjp content
    refine ⟨⟨a, b⟩, ?_⟩
    show validate_generation (extract_sql_from_response_full env.jp content)
      = Except.ok ⟨a, b⟩
    rw [h]
    rfl

/-- All-string oracles make every repair generation validate without raising. -/
lemma agent_improve_sql_full_ok (env : AgentEnvFull)
    (hjp : ∀ s d, env.jp s = some d → ∀ kv ∈ d, ∃ t, (kv : String × PyVal).2 = PyVal.str t)
    (i : Nat) (sql err : String) :
    ∃ rr, agent_improve_sql_full env i sql err = Except.ok rr := by
  unfold agent_improve_sql_full
  cases hg : env.improve_content i sql err with
  | error e => exact ⟨⟨"", "Error improving SQL: " ++ e⟩, rfl⟩
  | ok content =>
    obtain ⟨a, b, h⟩ := extract_sql_from_response_full_str env.jp hjp content
    refine ⟨⟨a, b⟩, ?_⟩
    show validate_generation (extract_sql_from_response_full env.jp content)
      = Except.ok ⟨a, b⟩
    rw [h]
    rfl

/-- All-string oracles make the repair loop terminate normally. -/
lemma process_loop_full_ok (env : AgentEnvFull)
    (hjp : ∀ s d, env.jp s = some d → ∀ kv ∈ d, ∃ t, (kv : String × PyVal).2 = PyVal.str t) :
    ∀ (fuel attempts : Nat) (sql expl : String) (r0 : Option SQLQueryResult)
      (e0 : Option String) (h0 : List SQLImprovementAttempt) (tr0 : List AgentEvent),
      ∃ out, process_loop_full env fuel attempts sql expl r0 e0 h0 tr0 = Except.ok out := by
  intro fuel
  induction fuel with
  | zero =>
    intro a sql expl r0 e0 h0 tr0
    exact ⟨⟨sql, expl, r0, e0, h0, tr0⟩, rfl⟩
  | succ f ih =>
    intro a sql expl r0 e0 h0 tr0
    cases hx : (execute_sql (env.engine a) sql).2 with
    | none =>
      refine ⟨⟨sql, expl, (execute_sql (env.engine a) sql).1, none, h0,
        tr0 ++ [AgentEvent.execOk sql]⟩, ?_⟩
      simp [process_loop_full, hx]
    | some err =>
      obtain ⟨rr, hrr⟩ := agent_improve_sql_full_ok env hjp a sql err
      by_cases himp : rr.sql_query = "" ∨ rr.sql_query = sql
      · refine ⟨⟨sql, expl, (execute_sql (env.engine a) sql).1, some err,
          h0 ++ [⟨a + 1, sql, err⟩],
          tr0 ++ [AgentEvent.execFail sql err, AgentEvent.improveCall sql err]⟩, ?_⟩
        simp only [process_loop_full, hx, hrr]
        rw [if_pos himp]
      · obtain ⟨out, hout⟩ := ih (a + 1) rr.sql_query
          (expl ++ "\n\nImproved SQL (attempt " ++ toString (a + 1)
            ++ "): " ++ rr.explanation)
          (execute_sql (env.engine a) sql).1 (some err)
          (h0 ++ [⟨a + 1, sql, err⟩])
          (tr0 ++ [AgentEvent.execFail sql err, AgentEvent.improveCall sql err])
        refine ⟨out, ?_⟩
        simp only [process_loop_full, hx, hrr]
        rw [if_neg himp]
        exact hout

/-- Loop invariant: when the loop ends in an error, that error is the message
of the last recorded attempt (the final failed execution). -/
lemma process_loop_last_error (env : AgentEnv) :
    ∀ (fuel attempts : Nat) (sql expl : String) (r0 : Option SQLQueryResult)
      (e0 : Option String) (h0 : List SQLImprovementAttempt) (tr0 : List AgentEvent),
      (∀ m, e0 = some m → ∃ rec, h0.getLast? = some rec ∧ rec.error = m) →
      ∀ msg, (process_loop env fuel attempts sql expl r0 e0 h0 tr0).error = some msg →
        ∃ rec,
          (process_loop env fuel attempts sql expl r0 e0 h0 tr0).improvement_history.getLast?
            = some rec ∧ rec.error = msg := by
  intro fuel
  induction fuel with
  | zero =>
    intro a sql expl r0 e0 h0 tr0 hinv msg hmsg
    simp only [process_loop] at hmsg ⊢
    exact hinv msg hmsg
  | succ f ih =>
    intro a sql expl r0 e0 h0 tr0 hinv msg hmsg
    cases hx : (execute_sql (env.engine a) sql).2 with
    | none => simp [process_loop, hx] at hmsg
    | some err =>
      by_cases himp : (llm_improve_sql env a sql err).sql_query = "" ∨
          (llm_improve_sql env a sql err).sql_query = sql
      · have hout : process_loop env (f + 1) a sql expl r0 e0 h0 tr0
            = ⟨sql, expl, (execute_sql (env.engine a) sql).1, some err,
               h0 ++ [⟨a + 1, sql, err⟩],
               tr0 ++ [AgentEvent.execFail sql err, AgentEvent.improveCall sql err]⟩ := by
          simp only [process_loop, hx]
          rw [if_pos himp]
        rw [hout] at hmsg ⊢
        have hme : err = msg := by simpa using hmsg
        subst hme
        exact ⟨⟨a + 1, sql, err⟩, by simp [List.getLast?_concat], rfl⟩
      · have hred : process_loop env (f + 1) a sql expl r0 e0 h0 tr0
            = process_loop env f (a + 1) (llm_improve_sql env a sql err).sql_query
                (expl ++ "\n\nImproved SQL (attempt " ++ toString (a + 1)
                  ++ "): " ++ (llm_improve_sql env a sql err).explanation)
                (execute_sql (env.engine a) sql).1 (some err)
                (h0 ++ [⟨a + 1, sql, err⟩])
                (tr0 ++ [AgentEvent.execFail sql err, AgentEvent.improveCall sql err]) := by
          simp only [process_loop, hx]
          rw [if_neg himp]
        rw [hred] at hmsg ⊢
        refine ih _ _ _ _ _ _ _ ?_ msg hmsg
        intro m hm
        have hme : err = m := by simpa using hm
        subst hme
        exact ⟨⟨a + 1, sql, err⟩, List.getLast?_concat h0, rfl⟩

/-- Raw generation text of the C5 counterexample: a JSON object whose
`sql_query` value is JSON `null`. -/
def badContent : String :=
  "\x7b\"sql_query\": null, \"explanation\": \"ok\"\x7d"

/-- `json.loads` for the counterexample run: real `json.loads` returns exactly
this dictionary on `badContent`, the only string the oracle is applied to in
that run. -/
def jpBad : JsonParseFull :=
  fun _ => some [("sql_query", PyVal.null), ("explanation", PyVal.str "ok")]

/-- Counterexample environment: the generation endpoint answers with
`badContent`. -/
def envRaise : AgentEnvFull :=
  { jp := jpBad
    gen_content := Except.ok badContent
    improve_content := fun _ _ _ => Except.ok badContent
    engine := fun _ _ => Except.error "no db" }

/-- C5 counterexample: on a generation output that is a JSON object with a
`null` `sql_query`, the parser accepts the dictionary (method 3) and passes
the `None` value through, and the pydantic `SQLGenerationResponse`
construction in `SQLAgent.generate_sql` raises a `ValidationError` that
escapes `process_query` — refuting the claim that no exception reaches the
caller. -/
theorem claim_c5_counterexample :
    extract_sql_from_response_full jpBad badContent = (PyVal.null, PyVal.str "ok") ∧
    process_query_run_full envRaise 3 "q" = Except.error AgentExn.validationError :=
  ⟨by decide, rfl⟩

/-- C5 (amended): `process_query` is not exception-free — when a JSON method
accepts a dictionary whose `sql_query` or `explanation` value is not a string
(e.g. JSON `null`), the pydantic construction raises a `ValidationError` that
escapes (see the counterexample).  In every other respect the claim holds:
(first conjunct) whenever every dictionary the JSON oracle produces is
string-valued, `process_query` returns normally, no exception escaping; and
(second conjunct, over the string-valued model) the response echoes the
natural query, never carries an empty-but-present history, a generation
failure — transport or parse — is captured as the fixed error with the
diagnostic in the explanation, a transport failure yields exactly the
empty-SQL generation outcome carrying its message, and an execution failure
surviving to the end (stagnation or budget exhaustion) is captured as the
final error, equal to the last recorded attempt's error message. -/
theorem claim_c5_failure_capture :
    (∀ (envf : AgentEnvFull) (mr : Nat) (q : String),
      (∀ s d, envf.jp s = some d → ∀ kv ∈ d, ∃ t, (kv : String × PyVal).2 = PyVal.str t) →
      ∃ r, process_query_run_full envf mr q = Except.ok r) ∧
    (∀ (env : AgentEnv) (mr : Nat) (q : String),
      (process_query env mr q).natural_query = q ∧
      (process_query env mr q).improvement_history ≠ some [] ∧
      ((llm_generate_sql env).sql_query = "" →
        (process_query env mr q).error = some "Could not generate SQL query" ∧
        (process_query env mr q).explanation
          = "Failed to generate SQL: " ++ (llm_generate_sql env).explanation ∧
        (process_query env mr q).query_result = none) ∧
      (∀ e, env.gen_content = Except.error e →
        (llm_generate_sql env).sql_query = "" ∧
        (llm_generate_sql env).explanation = "Error generating SQL: " ++ e) ∧
      (∀ msg, (llm_generate_sql env).sql_query ≠ "" →
        (process_query env mr q).error = some msg →
        ∃ rec, (historyOf (process_query env mr q)).getLast? = some rec ∧
          rec.error = msg)) := by
  constructor
  · intro envf mr q hjp
    obtain ⟨g, hg⟩ := agent_generate_sql_full_ok envf hjp
    by_cases hs : g.sql_query = ""
    · refine ⟨(⟨q, "", "Failed to generate SQL: " ++ g.explanation, none,
        some "Could not generate SQL query", none⟩, []), ?_⟩
      simp only [process_query_run_full, hg]
      rw [if_pos hs]
    · obtain ⟨out, hout⟩ := process_loop_full_ok envf hjp mr 0 g.sql_query g.explanation
        none none [] []
      refine ⟨(⟨q, out.current_sql, out.current_explanation, out.result, out.error,
        if out.improvement_history = [] then none else some out.improvement_history⟩,
        out.trace), ?_⟩
      simp only [process_query_run_full, hg]
      rw [if_neg hs, hout]
  · intro env mr q
    refine ⟨?_, ?_, ?_, ?_, ?_⟩
    · by_cases hsql : (llm_generate_sql env).sql_query = "" <;>
        simp [process_query, process_query_run, hsql]
    · by_cases hsql : (llm_generate_sql env).sql_query = ""
      · simp [process_query, process_query_run, hsql]
      · simp only [process_query, process_query_run]
        rw [if_neg hsql]
        simp only []
        split
        · simp
        · next h => simpa using h
    · intro hsql
      refine ⟨?_, ?_, ?_⟩ <;> simp [process_query, process_query_run, hsql]
    · intro e he
      constructor <;> simp [llm_generate_sql, he]
    · intro msg hne hmsg
      have hist_eq : historyOf (process_query env mr q)
          = (process_loop env mr 0 (llm_generate_sql env).sql_query
              (llm_generate_sql env).explanation none none [] []).improvement_history := by
        simp only [process_query, process_query_run, historyOf]
        rw [if_neg hne]
        simp only [getD_history]
      have err_eq : (process_query env mr q).error
          = (process_loop env mr 0 (llm_generate_sql env).sql_query
              (llm_generate_sql env).explanation none none [] []).error := by
        simp only [process_query, process_query_run]
        rw [if_neg hne]
      rw [err_eq] at hmsg
      rw [hist_eq]
      exact process_loop_last_error env mr 0 (llm_generate_sql env).sql_query
        (llm_generate_sql env).explanation none none [] []
        (fun m hm => absurd hm (by simp)) msg hmsg

/-- JSON oracle for the C5 witness: a string-valued dictionary, as real
`json.loads` returns on the witness generation text. -/
def jpStrGood : JsonParseFull :=
  fun _ => some [("sql_query", PyVal.str "SELECT 2"), ("explanation", PyVal.str "ok")]

/-- Environment for the C5 no-raise witness: a JSON generation output with
string values and a one-row engine. -/
def envFullGood : AgentEnvFull :=
  { jp := jpStrGood
    gen_content := Except.ok "\x7b\"sql_query\": \"SELECT 2\", \"explanation\": \"ok\"\x7d"
    improve_content := fun _ _ _ => Except.ok "x"
    engine := fun _ _ => Except.ok (["a"], [fun _ => SQLValue.intV 1]) }

/-- Witness for the amended C5: a string-valued run returns normally; a
transport failure is captured in the error and explanation; a stagnating run's
final error is the last recorded attempt's error. -/
theorem claim_c5_witness :
    (∃ r, process_query_run_full envFullGood 3 "q" = Except.ok r) ∧
    ((process_query envGenFail 3 "q").error = some "Could not generate SQL query" ∧
      (process_query envGenFail 3 "q").explanation
        = "Failed to generate SQL: " ++ (llm_generate_sql envGenFail).explanation ∧
      (process_query envGenFail 3 "q").query_result = none) ∧
    (∃ rec, (historyOf (process_query envStagnate 3 "list t")).getLast? = some rec ∧
      rec.error = "SQL execution error: no such table: t") := by
  refine ⟨?_, ?_, ?_⟩
  · refine claim_c5_failure_capture.1 envFullGood 3 "q" ?_
    intro s d h kv hkv
    injection h with h2
    subst h2
    simp at hkv
    rcases hkv with rfl | rfl
    · exact ⟨"SELECT 2", rfl⟩
    · exact ⟨"ok", rfl⟩
  · exact (claim_c5_failure_capture.2 envGenFail 3 "q").2.2.1 (by decide)
  · exact (claim_c5_failure_capture.2 envStagnate 3 "list t").2.2.2.2
      "SQL execution error: no such table: t" (by decide) (by decide)
